import Mathlib

/-!
Verification of the content-studio research pipeline.

This development shallowly embeds the core of the repository:
the web-search fallback chain and page fetcher (`src/lib/web-search.ts`),
the fact extractor (`src/lib/fact-extractor.ts`), the research agent
(`src/agents/research-agent.ts`), the editor agent
(`src/agents/editor-agent.ts`), and the pipeline orchestrator
(`src/app/api/orchestrate/route.ts`).

JavaScript strings are modelled as lists of characters.  Network effects
(HTTP requests, timeouts) are modelled by abstracting each remote call as
its outcome, passed in as a parameter; everything downstream of those
outcomes is translated directly from the source.
-/

set_option maxHeartbeats 1000000

namespace ContentStudio

/-- A JavaScript string, modelled as its list of characters. -/
abbrev Str := List Char

/-- Coerce a Lean string literal into the model type. -/
def str (s : String) : Str := s.data

/-- Characters matched by the JavaScript regex class `\s`
(the ASCII whitespace characters plus no-break space). -/
def isJsWs (c : Char) : Bool :=
  c = ' ' || c = '\t' || c = '\n' || c = '\r' ||
    c = Char.ofNat 11 || c = Char.ofNat 12 || c = Char.ofNat 160

/-- JavaScript `String.prototype.trim`. -/
def jsTrim (s : Str) : Str :=
  ((s.dropWhile isJsWs).reverse.dropWhile isJsWs).reverse

/-- One pass of `text.replace(/\s+/g, " ")`: `prevWs` records whether
the previous character was whitespace, so each maximal whitespace run
emits exactly one space. -/
def collapseWsAux : Bool → Str → Str
  | _, [] => []
  | prevWs, c :: rest =>
    if isJsWs c then
      if prevWs then collapseWsAux true rest
      else ' ' :: collapseWsAux true rest
    else c :: collapseWsAux false rest

/-- JavaScript `text.replace(/\s+/g, " ")`. -/
def collapseWs (s : Str) : Str := collapseWsAux false s

/-- Does the current chunk (held reversed) end in a sentence terminator?
Used to decide the lookbehind `(?<=[.!?])` of the sentence splitter. -/
def headIsSentEnd : Str → Bool
  | [] => false
  | p :: _ => p = '.' || p = '!' || p = '?'

/-- Generic model of `String.prototype.split` for the whitespace-run
separator regexes the source uses.  `sepStart acc c` decides whether `c`
opens a separator run, given the reversed current chunk `acc`; once a
run is open, further whitespace extends it.  Boundary empty chunks are
kept exactly as `split` keeps them. -/
def jsSplitAux (sepStart : Str → Char → Bool) :
    Str → Str → List Str → Bool → List Str
  | [], acc, done, _ => (acc.reverse :: done).reverse
  | c :: rest, acc, done, inRun =>
    if inRun && isJsWs c then jsSplitAux sepStart rest acc done true
    else if sepStart acc c then
      jsSplitAux sepStart rest [] (acc.reverse :: done) true
    else jsSplitAux sepStart rest (c :: acc) done false

/-- JavaScript `s.split(/\s+/)`. -/
def splitWs (s : Str) : List Str :=
  jsSplitAux (fun _ c => isJsWs c) s [] [] false

/-- JavaScript `text.split(/(?<=[.!?])\s+/)`: split at every maximal
whitespace run whose first character is preceded by `.`, `!` or `?`. -/
def splitSentChunks (s : Str) : List Str :=
  jsSplitAux (fun acc c => isJsWs c && headIsSentEnd acc) s [] [] false

/-- `splitSentences` from `src/lib/fact-extractor.ts`: split into sentence
chunks, trim each, keep only those longer than 15 characters. -/
def splitSentences (text : Str) : List Str :=
  ((splitSentChunks text).map jsTrim).filter (fun s => 15 < s.length)

/-- ASCII-range model of `String.prototype.toLowerCase`. -/
def lowerStr (s : Str) : Str := s.map Char.toLower

/-- Substring test (model of JavaScript `RegExp.prototype.test` for a
literal pattern). -/
def isSubstrOf (pat : Str) : Str → Bool
  | [] => pat.isEmpty
  | c :: rest => pat.isPrefixOf (c :: rest) || isSubstrOf pat rest

/-- The window test for the year regex `20[0-2]\d`. -/
def yearAtHead : Str → Bool
  | '2' :: '0' :: c :: d :: _ => (decide ('0' ≤ c ∧ c ≤ '2')) && d.isDigit
  | _ => false

def containsYear : Str → Bool
  | [] => false
  | c :: rest => yearAtHead (c :: rest) || containsYear rest

/-- Alternatives of `/according to|study|report|research|found that|data shows/i`. -/
def factualIndicators : List Str :=
  [str ("according to"), str ("study"), str ("report"), str ("research"),
   str ("found that"), str ("data shows")]

/-- Alternatives of `/click here|sign up|subscribe|buy now|best ever/i`. -/
def promoPhrases : List Str :=
  [str ("click here"), str ("sign up"), str ("subscribe"), str ("buy now"),
   str ("best ever")]

/-- Alternatives of `/cookie|privacy policy|consent/i`. -/
def privacyPhrases : List Str :=
  [str ("cookie"), str ("privacy policy"), str ("consent")]

/-- `SearchResult` from `src/lib/web-search.ts`. -/
structure SearchResult where
  title : Str
  url : Str
  snippet : Str
deriving DecidableEq

/-- `ResearchFact` from `src/agents/types.ts`. -/
structure ResearchFact where
  fact : Str
  sourceUrl : Str
  sourceTitle : Str
deriving DecidableEq

/-- `scoreSentence` from `src/lib/fact-extractor.ts`. -/
def scoreSentence (s : Str) : Int :=
  (if 40 < s.length ∧ s.length < 300 then 3
   else if 300 ≤ s.length then 1 else 0)
  + (if s.any Char.isDigit then 4 else 0)
  + (if s.any (fun c => c = '%' || c = '$') then 3 else 0)
  + (if factualIndicators.any (fun p => isSubstrOf p (lowerStr s)) then 3 else 0)
  + (if containsYear s then 2 else 0)
  - (if s.getLast? = some '?' then 5 else 0)
  - (if promoPhrases.any (fun p => isSubstrOf p (lowerStr s)) then 10 else 0)
  - (if privacyPhrases.any (fun p => isSubstrOf p (lowerStr s)) then 10 else 0)

/-- The candidate record built inside `extractFacts`.  The page-text
multiplier `0.8` makes scores rational, so `score` lives in `ℚ`. -/
structure FactCandidate where
  sentence : Str
  sourceUrl : Str
  sourceTitle : Str
  score : ℚ
deriving DecidableEq

/-- Candidates contributed by one search result's snippet
(`src/lib/fact-extractor.ts`, lines 23-32). -/
def snippetCandidates (r : SearchResult) : List FactCandidate :=
  (splitSentences r.snippet).map fun s =>
    ⟨s, r.url, r.title, (scoreSentence s : ℚ)⟩

/-- Candidates contributed by fetched page content for one result
(`src/lib/fact-extractor.ts`, lines 34-46).  The page-text map is an
association list; a stored empty string is falsy in the source and
contributes nothing. -/
def pageCandidates (pageTexts : List (Str × Str)) (r : SearchResult) :
    List FactCandidate :=
  match List.lookup r.url pageTexts with
  | none => []
  | some t =>
    if t.isEmpty then []
    else
      ((splitSentences t).take 20).map fun s =>
        ⟨s, r.url, r.title, (scoreSentence s : ℚ) * (4 / 5)⟩

def collectCandidates (results : List SearchResult)
    (pageTexts : List (Str × Str)) : List FactCandidate :=
  results.flatMap fun r => snippetCandidates r ++ pageCandidates pageTexts r

/-- Insert into a list sorted by descending score, after any entry of
equal or larger score (the stable order `Array.prototype.sort` keeps). -/
def insertByScore (c : FactCandidate) : List FactCandidate → List FactCandidate
  | [] => [c]
  | d :: rest =>
    if d.score < c.score then c :: d :: rest else d :: insertByScore c rest

/-- `candidates.sort((a, b) => b.score - a.score)`: a stable descending
sort by score. -/
def sortByScoreDesc (l : List FactCandidate) : List FactCandidate :=
  l.foldl (fun acc c => insertByScore c acc) []

/-- `c.sentence.toLowerCase().replace(/\s+/g, " ").trim()`. -/
def jsNormalize (s : Str) : Str := jsTrim (collapseWs (lowerStr s))

/-- The word set of a normalized sentence: `normalized.split(/\s+/)`
viewed as a set. -/
def wordSet (s : Str) : Finset Str := (splitWs s).toFinset

/-- The word-overlap ratio computed inside `isDuplicate`:
`intersection.length / Math.min(wordsA.size, wordsB.size)`. -/
def overlap (a b : Str) : ℚ :=
  (((wordSet a) ∩ (wordSet b)).card : ℚ) /
    ((min (wordSet a).card (wordSet b).card : ℕ) : ℚ)

/-- `isDuplicate` from `src/lib/fact-extractor.ts`: the candidate is a
near-duplicate when its overlap with some already-accepted normalized
fact exceeds `0.6`. -/
def isDuplicate (normalized : Str) (seen : List Str) : Bool :=
  seen.any fun existing => decide (3 / 5 < overlap normalized existing)

def mkFact (c : FactCandidate) : ResearchFact :=
  ⟨c.sentence, c.sourceUrl, c.sourceTitle⟩

/-- The selection loop of `extractFacts` (lines 52-69): walk the sorted
candidates, stop once `targetCount` facts are accepted, skip short or
near-duplicate normalized sentences. -/
def selectFacts : List FactCandidate → Nat → List Str → List ResearchFact
  | [], _, _ => []
  | c :: rest, remaining, seen =>
    if remaining = 0 then []
    else if (jsNormalize c.sentence).length < 30 then
      selectFacts rest remaining seen
    else if isDuplicate (jsNormalize c.sentence) seen then
      selectFacts rest remaining seen
    else
      mkFact c :: selectFacts rest (remaining - 1) (jsNormalize c.sentence :: seen)

/-- `extractFacts` from `src/lib/fact-extractor.ts`. -/
def extractFacts (results : List SearchResult) (pageTexts : List (Str × Str))
    (targetCount : Nat) : List ResearchFact :=
  selectFacts (sortByScoreDesc (collectCandidates results pageTexts))
    targetCount []

/-!
## Web search fallback chain (`src/lib/web-search.ts`)

Each provider performs network requests, so a provider is abstracted as
its outcome: `.error` when the attempt threw (network failure, non-ok
status, block detection), `.ok rs` when it parsed a result list `rs`.
`searchWeb` itself is translated directly: each strategy sits in its own
`try`-block, a thrown error or an empty list falls through to the next
strategy, and the chain ends with `return []`.
-/

/-- `searchWeb` from `src/lib/web-search.ts` as a function of the three
provider outcomes, in the source's fixed order: DuckDuckGo HTML, then
DuckDuckGo Lite, then Wikipedia. -/
def searchWeb (ddgHtml ddgLite wikipedia : Except Str (List SearchResult)) :
    List SearchResult :=
  match ddgHtml with
  | .ok (r :: rs) => r :: rs
  | _ =>
    match ddgLite with
    | .ok (r :: rs) => r :: rs
    | _ =>
      match wikipedia with
      | .ok (r :: rs) => r :: rs
      | _ => []

/-- A provider outcome that makes `searchWeb` move on: the attempt threw,
or it returned no results. -/
def exhausted : Except Str (List SearchResult) → Bool
  | .ok [] => true
  | .ok (_ :: _) => false
  | .error _ => true

/-!
## Page fetcher (`src/lib/web-search.ts`, `fetchPageContent`)

The HTTP exchange is abstracted as a `FetchOutcome`; the DOM text
extraction (cheerio selector walk, lines 303-331) is abstracted as a
function from the response body to the selected raw text.  The cleanup
and truncation applied afterwards are translated directly.
-/

inductive FetchOutcome where
  /-- The fetch threw: network error, abort on the 8s timeout, or any
  failure while reading the body. -/
  | errored : FetchOutcome
  /-- A settled HTTP response with its `ok` flag and body. -/
  | response (ok : Bool) (body : Str) : FetchOutcome
deriving DecidableEq

/-- `fetchPageContent` from `src/lib/web-search.ts`: empty string on any
error or non-ok status; otherwise the extracted text with whitespace
collapsed, trimmed, and cut to `maxLength` by `slice(0, maxLength)`. -/
def fetchPageContent (outcome : FetchOutcome) (extractText : Str → Str)
    (maxLength : Nat := 5000) : Str :=
  match outcome with
  | .errored => []
  | .response ok body =>
    if !ok then []
    else (jsTrim (collapseWs (extractText body))).take maxLength

/-!
## Research agent (`src/agents/research-agent.ts`)
-/

def TARGET_FACTS : Nat := 7
def MAX_PAGES_TO_FETCH : Nat := 5

/-- `ResearchSource` from `src/agents/types.ts`.  `retrievedAt` is a
wall-clock timestamp in the source and is fixed to the empty string
here. -/
structure ResearchSource where
  title : Str
  url : Str
  snippet : Str
  retrievedAt : Str
deriving DecidableEq

/-- `ResearchResult` from `src/agents/types.ts`.  `summary` and
`completedAt` are informational strings the claims do not touch. -/
structure ResearchResult where
  topic : Str
  summary : Str
  facts : List ResearchFact
  sources : List ResearchSource
  searchQueries : List Str
  completedAt : Str
deriving DecidableEq

/-- The URL key of `deduplicateResults`:
`r.url.replace(/^https?:\/\//, "").replace(/\/$/, "")`. -/
def normalizeUrlKey (u : Str) : Str :=
  let noScheme :=
    if (str ("https://")).isPrefixOf u then u.drop 8
    else if (str ("http://")).isPrefixOf u then u.drop 7
    else u
  match noScheme.getLast? with
  | some '/' => noScheme.dropLast
  | _ => noScheme

def dedupAux : List SearchResult → List Str → List SearchResult
  | [], _ => []
  | r :: rest, seen =>
    let key := normalizeUrlKey r.url
    if key ∈ seen then dedupAux rest seen
    else r :: dedupAux rest (key :: seen)

/-- `deduplicateResults` from `src/agents/research-agent.ts`: keep the
first result per normalized URL key, preserving order. -/
def deduplicateResults (results : List SearchResult) : List SearchResult :=
  dedupAux results []

/-- `buildQueries` from `src/agents/research-agent.ts`. -/
def buildQueries (topic : Str) : List Str :=
  [topic ++ str (" key facts"),
   topic ++ str (" latest information 2025"),
   topic ++ str (" statistics and data")]

def mkSource (r : SearchResult) : ResearchSource :=
  ⟨r.title, r.url, r.snippet, []⟩

/-- The results whose pages the research agent fetches:
`uniqueResults.slice(0, MAX_PAGES_TO_FETCH)`. -/
def pagesToFetch (searchBatches : List (List SearchResult)) :
    List SearchResult :=
  (deduplicateResults searchBatches.flatten).take MAX_PAGES_TO_FETCH

/-- `ResearchAgent.research` from `src/agents/research-agent.ts`.  The
settled per-query search outcomes arrive as `searchBatches` (a failed
query contributes `[]`, exactly as the source's per-query `catch` does),
and the page fetcher is abstracted as `fetchText`, its result for a URL
(`[]` when the fetch yielded no usable content).  The human-readable
`summary` string and the timestamps are not modelled and are fixed to
the empty string. -/
def research (topic : Str) (searchBatches : List (List SearchResult))
    (fetchText : Str → Str) : ResearchResult :=
  let uniqueResults := deduplicateResults searchBatches.flatten
  let toFetch := uniqueResults.take MAX_PAGES_TO_FETCH
  let pageTexts : List (Str × Str) :=
    toFetch.foldl
      (fun m r =>
        let t := fetchText r.url
        if t.isEmpty then m else m ++ [(r.url, t)])
      []
  let facts := extractFacts uniqueResults pageTexts TARGET_FACTS
  let factUrls : List Str := facts.map (fun f => f.sourceUrl)
  let contributing :=
    (uniqueResults.filter (fun r => decide (r.url ∈ factUrls))).map mkSource
  let remaining :=
    ((uniqueResults.filter (fun r => decide (r.url ∉ factUrls))).take 3).map
      mkSource
  { topic := topic
    summary := []
    facts := facts
    sources := contributing ++ remaining
    searchQueries := buildQueries topic
    completedAt := [] }

/-!
## Writer and editor results (`src/agents/types.ts`)

Status and tone unions are string-typed in the source and are modelled
as `Str` values.
-/

/-- `ArticleCitation` from `src/agents/types.ts`. -/
structure ArticleCitation where
  index : Int
  sourceTitle : Str
  sourceUrl : Str
deriving DecidableEq

/-- `WriterResult` from `src/agents/types.ts`. -/
structure WriterResult where
  title : Str
  article : Str
  tone : Str
  wordCount : Nat
  citations : List ArticleCitation
  topic : Str
  generatedAt : Str
deriving DecidableEq

/-- `EditChange` from `src/agents/types.ts` (the `type` union is a
string). -/
structure EditChange where
  type : Str
  original : Str
  replacement : Str
  reason : Str
deriving DecidableEq

/-- `QualityScore` from `src/agents/types.ts`.  The source's third field
is named `structure`, a keyword here, so it is rendered `structural`. -/
structure QualityScore where
  overall : ℚ
  grammar : ℚ
  clarity : ℚ
  structural : ℚ
  engagement : ℚ
deriving DecidableEq

/-- `EditorResult` from `src/agents/types.ts`.  `editedAt` is a
wall-clock timestamp, fixed to the empty string. -/
structure EditorResult where
  originalTitle : Str
  editedTitle : Str
  headlineSuggestions : List Str
  originalArticle : Str
  editedArticle : Str
  changes : List EditChange
  qualityScore : QualityScore
  wordCount : Nat
  topic : Str
  tone : Str
  citations : List ArticleCitation
  editedAt : Str
deriving DecidableEq

/-!
## Editor agent (`src/agents/editor-agent.ts`)
-/

/-- `EditOptions` from `src/lib/article-editor.ts`. -/
structure EditOptions where
  article : Str
  title : Str
  topic : Str
  tone : Str
deriving DecidableEq

/-- `EditResult` from `src/lib/article-editor.ts`. -/
structure EditResult where
  editedArticle : Str
  editedTitle : Str
  headlineSuggestions : List Str
  changes : List EditChange
  qualityScore : QualityScore
deriving DecidableEq

/-- `EditInput` from `src/agents/editor-agent.ts`; the optional fields
carry their TypeScript optionality. -/
structure EditInput where
  title : Str
  article : Str
  topic : Str
  tone : Option Str
  citations : Option (List ArticleCitation)
deriving DecidableEq

/-- `EditorAgent.edit` from `src/agents/editor-agent.ts`.  The rule-table
rewriting engine `editArticle` (`src/lib/article-editor.ts`) is passed in
as a function parameter: the fields this development reasons about are
assembled by `edit` itself and do not depend on it.  A raised error is
modelled as `Except.error` with the thrown message. -/
def edit (editArticle : EditOptions → EditResult) (input : EditInput) :
    Except Str EditorResult :=
  let tone := input.tone.getD (str ("professional"))
  let citations := input.citations.getD []
  if input.article.isEmpty || (jsTrim input.article).isEmpty then
    .error (str ("A non-empty 'article' string is required for editing"))
  else
    let result := editArticle ⟨input.article, input.title, input.topic, tone⟩
    .ok
      { originalTitle := input.title
        editedTitle := result.editedTitle
        headlineSuggestions := result.headlineSuggestions
        originalArticle := input.article
        editedArticle := result.editedArticle
        changes := result.changes
        qualityScore := result.qualityScore
        wordCount := (splitWs result.editedArticle).length
        topic := input.topic
        tone := tone
        citations := citations
        editedAt := [] }

/-!
## Pipeline orchestrator (`src/app/api/orchestrate/route.ts`)

The three agent invocations are network-free only at this modelling
boundary: each stage is abstracted as the outcome its call would settle
to (`.ok` value or `.error` message).  The orchestration logic after
input validation — the `try`/`catch` around each `runStep` call, the
zero-facts check, and the final status derivation — is translated
directly.  `durationMs` and `totalDurationMs` are wall-clock readings in
the source and are fixed to `0`; `completedAt` to the empty string.
-/

/-- `OrchestrationStep` from `src/agents/types.ts` (statuses are the
source's literal strings). -/
structure OrchestrationStep where
  agent : Str
  status : Str
  durationMs : Nat
  error : Option Str
deriving DecidableEq

/-- `OrchestrationResult` from `src/agents/types.ts`. -/
structure OrchestrationResult where
  status : Str
  topic : Str
  tone : Str
  steps : List OrchestrationStep
  totalDurationMs : Nat
  research : Option ResearchResult
  article : Option WriterResult
  edited : Option EditorResult
  completedAt : Str
deriving DecidableEq

/-- The `POST` handler of `src/app/api/orchestrate/route.ts` after input
validation, as a function of the three stage outcomes.  Step records
follow `runStep`: a completed stage yields status `"completed"`, a
throwing stage yields `"failed"` with the error message; stages never
run are `"skipped"`. -/
def runPipeline (topic tone : Str)
    (researchOut : Except Str ResearchResult)
    (writerOut : Except Str WriterResult)
    (editorOut : Except Str EditorResult) : OrchestrationResult :=
  match researchOut with
  | .error msg =>
    { status := str ("failed"), topic := topic, tone := tone
      steps :=
        [⟨str ("research"), str ("failed"), 0, some msg⟩,
         ⟨str ("writer"), str ("skipped"), 0, none⟩,
         ⟨str ("editor"), str ("skipped"), 0, none⟩]
      totalDurationMs := 0
      research := none, article := none, edited := none, completedAt := [] }
  | .ok researchData =>
    if researchData.facts.isEmpty then
      { status := str ("partial"), topic := topic, tone := tone
        steps :=
          [⟨str ("research"), str ("completed"), 0, none⟩,
           ⟨str ("writer"), str ("skipped"), 0,
            some (str ("No facts available from research to write about"))⟩,
           ⟨str ("editor"), str ("skipped"), 0, none⟩]
        totalDurationMs := 0
        research := some researchData
        article := none, edited := none, completedAt := [] }
    else
      match writerOut with
      | .error msg =>
        { status := str ("partial"), topic := topic, tone := tone
          steps :=
            [⟨str ("research"), str ("completed"), 0, none⟩,
             ⟨str ("writer"), str ("failed"), 0, some msg⟩,
             ⟨str ("editor"), str ("skipped"), 0, none⟩]
          totalDurationMs := 0
          research := some researchData
          article := none, edited := none, completedAt := [] }
      | .ok writerData =>
        match editorOut with
        | .error msg =>
          { status := str ("partial"), topic := topic, tone := tone
            steps :=
              [⟨str ("research"), str ("completed"), 0, none⟩,
               ⟨str ("writer"), str ("completed"), 0, none⟩,
               ⟨str ("editor"), str ("failed"), 0, some msg⟩]
            totalDurationMs := 0
            research := some researchData
            article := some writerData, edited := none, completedAt := [] }
        | .ok editorData =>
          { status := str ("completed"), topic := topic, tone := tone
            steps :=
              [⟨str ("research"), str ("completed"), 0, none⟩,
               ⟨str ("writer"), str ("completed"), 0, none⟩,
               ⟨str ("editor"), str ("completed"), 0, none⟩]
            totalDurationMs := 0
            research := some researchData
            article := some writerData
            edited := some editorData, completedAt := [] }

/-- Decidable equality for stage outcomes, used to evaluate the model on
concrete witnesses. -/
instance {e a : Type} [DecidableEq e] [DecidableEq a] :
    DecidableEq (Except e a)
  | .error x, .error y =>
    if h : x = y then .isTrue (congrArg Except.error h)
    else .isFalse (fun he => h (Except.error.inj he))
  | .error _, .ok _ => .isFalse (fun he => Except.noConfusion he)
  | .ok _, .error _ => .isFalse (fun he => Except.noConfusion he)
  | .ok x, .ok y =>
    if h : x = y then .isTrue (congrArg Except.ok h)
    else .isFalse (fun he => h (Except.ok.inj he))

/-!
## Theorems
-/

/-- C9: the sentence scorer ranks
"According to a 2024 study, 42% of users reported improvement."
strictly above "Is this good?". -/
theorem scoreSentence_example_ordering :
    scoreSentence (str ("Is this good?")) <
      scoreSentence
        (str ("According to a 2024 study, 42% of users reported improvement.")) := by
  decide

/-- C2: the search chain tries DuckDuckGo HTML, DuckDuckGo Lite, then
Wikipedia in that fixed order, returns the first provider's non-empty
result list without ever merging providers, and returns `[]` (never a
raised error) when every provider fails or yields no results. -/
theorem searchWeb_fallback_chain :
    (∀ r rs p2 p3, searchWeb (.ok (r :: rs)) p2 p3 = r :: rs) ∧
    (∀ p1 p3 r rs, exhausted p1 = true →
      searchWeb p1 (.ok (r :: rs)) p3 = r :: rs) ∧
    (∀ p1 p2 r rs, exhausted p1 = true → exhausted p2 = true →
      searchWeb p1 p2 (.ok (r :: rs)) = r :: rs) ∧
    (∀ p1 p2 p3, exhausted p1 = true → exhausted p2 = true →
      exhausted p3 = true → searchWeb p1 p2 p3 = []) ∧
    (∀ p1 p2 p3, searchWeb p1 p2 p3 = [] ∨
      p1 = .ok (searchWeb p1 p2 p3) ∨ p2 = .ok (searchWeb p1 p2 p3) ∨
      p3 = .ok (searchWeb p1 p2 p3)) := by
  refine ⟨fun r rs p2 p3 => rfl, ?_, ?_, ?_, ?_⟩
  · intro p1 p3 r rs h1
    rcases p1 with m1 | (_ | ⟨x1, xs1⟩) <;>
      first | rfl | simp_all [exhausted]
  · intro p1 p2 r rs h1 h2
    rcases p1 with m1 | (_ | ⟨x1, xs1⟩) <;>
      rcases p2 with m2 | (_ | ⟨x2, xs2⟩) <;>
      first | rfl | simp_all [exhausted]
  · intro p1 p2 p3 h1 h2 h3
    rcases p1 with m1 | (_ | ⟨x1, xs1⟩) <;>
      rcases p2 with m2 | (_ | ⟨x2, xs2⟩) <;>
      rcases p3 with m3 | (_ | ⟨x3, xs3⟩) <;>
      first | rfl | simp_all [exhausted]
  · intro p1 p2 p3
    rcases p1 with m1 | (_ | ⟨x1, xs1⟩) <;>
      rcases p2 with m2 | (_ | ⟨x2, xs2⟩) <;>
      rcases p3 with m3 | (_ | ⟨x3, xs3⟩) <;>
      simp [searchWeb]

/-- Witness for C2: with the HTML provider blocked, the Lite provider
empty and Wikipedia failing, the chain settles to the empty list. -/
theorem searchWeb_fallback_chain_witness :
    searchWeb (.error (str ("DuckDuckGo HTML: blocked"))) (.ok [])
      (.error (str ("Wikipedia API: 500"))) = [] :=
  searchWeb_fallback_chain.2.2.2.1 _ _ _ rfl rfl rfl

/-- C5: the page fetcher is total; its result never exceeds `maxLength`
characters, and any fetch error or non-ok HTTP status yields the empty
string. -/
theorem fetchPageContent_bounded_and_total :
    (∀ outcome extractText maxLength,
      (fetchPageContent outcome extractText maxLength).length ≤ maxLength) ∧
    (∀ extractText maxLength,
      fetchPageContent .errored extractText maxLength = []) ∧
    (∀ body extractText maxLength,
      fetchPageContent (.response false body) extractText maxLength = []) := by
  refine ⟨?_, fun extractText maxLength => rfl, fun body extractText maxLength => rfl⟩
  intro outcome extractText maxLength
  cases outcome with
  | errored => simp [fetchPageContent]
  | response ok body =>
    cases ok with
    | false => simp [fetchPageContent]
    | true =>
      simp only [fetchPageContent, Bool.not_true, Bool.false_eq_true,
        if_false]
      exact List.length_take_le _ _

/-- C1: after input validation, the overall status is `"failed"` exactly
when the research stage raises; in that case the step list is research
`"failed"`, writer and editor `"skipped"`, and the research field is
null. -/
theorem runPipeline_failed_iff_research_raises :
    (∀ topic tone researchOut writerOut editorOut,
      ((runPipeline topic tone researchOut writerOut editorOut).status
          = str ("failed")
        ↔ ∃ msg, researchOut = .error msg)) ∧
    (∀ topic tone msg writerOut editorOut,
      (runPipeline topic tone (.error msg) writerOut editorOut).steps =
        [⟨str ("research"), str ("failed"), 0, some msg⟩,
         ⟨str ("writer"), str ("skipped"), 0, none⟩,
         ⟨str ("editor"), str ("skipped"), 0, none⟩] ∧
      (runPipeline topic tone (.error msg) writerOut editorOut).research
        = none) := by
  constructor
  · intro topic tone researchOut writerOut editorOut
    cases researchOut with
    | error m => simp [runPipeline]
    | ok rd =>
      cases hf : rd.facts.isEmpty <;> cases writerOut <;> cases editorOut <;>
        simp [runPipeline, hf] <;> decide
  · intro topic tone msg writerOut editorOut
    exact ⟨rfl, rfl⟩

/-- C4: a completed research stage with zero facts yields status
`"partial"`, step statuses completed/skipped/skipped, the writer step's
explanatory message, a populated research field and null article and
edited fields. -/
theorem runPipeline_no_facts_partial :
    ∀ topic tone researchData writerOut editorOut,
      researchData.facts = [] →
      runPipeline topic tone (.ok researchData) writerOut editorOut =
        { status := str ("partial"), topic := topic, tone := tone
          steps :=
            [⟨str ("research"), str ("completed"), 0, none⟩,
             ⟨str ("writer"), str ("skipped"), 0,
              some (str ("No facts available from research to write about"))⟩,
             ⟨str ("editor"), str ("skipped"), 0, none⟩]
          totalDurationMs := 0
          research := some researchData
          article := none, edited := none, completedAt := [] } := by
  intro topic tone researchData writerOut editorOut h
  simp [runPipeline, h]

def sampleEmptyResearch : ResearchResult :=
  { topic := str ("ai"), summary := [], facts := [], sources := []
    searchQueries := [], completedAt := [] }

/-- Witness for C4 at a concrete zero-fact research result. -/
theorem runPipeline_no_facts_partial_witness :
    runPipeline (str ("ai")) (str ("professional")) (.ok sampleEmptyResearch)
      (.error []) (.error []) =
      { status := str ("partial"), topic := str ("ai")
        tone := str ("professional")
        steps :=
          [⟨str ("research"), str ("completed"), 0, none⟩,
           ⟨str ("writer"), str ("skipped"), 0,
            some (str ("No facts available from research to write about"))⟩,
           ⟨str ("editor"), str ("skipped"), 0, none⟩]
        totalDurationMs := 0
        research := some sampleEmptyResearch
        article := none, edited := none, completedAt := [] } :=
  runPipeline_no_facts_partial _ _ _ _ _ rfl

/-- C10: a successful edit passes the input citations (defaulted to `[]`
when absent), the input title and the input article through unchanged. -/
theorem edit_passthrough_fields :
    ∀ editArticle input result,
      edit editArticle input = .ok result →
      result.citations = input.citations.getD [] ∧
      result.originalTitle = input.title ∧
      result.originalArticle = input.article := by
  intro editArticle input result h
  simp only [edit] at h
  split at h
  · cases h
  · cases h
    exact ⟨rfl, rfl, rfl⟩

def sampleEditFn : EditOptions → EditResult := fun _ =>
  { editedArticle := str ("Edited body."), editedTitle := str ("Edited")
    headlineSuggestions := [], changes := []
    qualityScore := ⟨0, 0, 0, 0, 0⟩ }

def sampleEditInput : EditInput :=
  { title := str ("T"), article := str ("Hello world."), topic := str ("ai")
    tone := none
    citations := some [⟨1, str ("S"), str ("https://s.example")⟩] }

def sampleEditOutput : EditorResult :=
  { originalTitle := str ("T"), editedTitle := str ("Edited")
    headlineSuggestions := [], originalArticle := str ("Hello world.")
    editedArticle := str ("Edited body."), changes := []
    qualityScore := ⟨0, 0, 0, 0, 0⟩, wordCount := 2, topic := str ("ai")
    tone := str ("professional")
    citations := [⟨1, str ("S"), str ("https://s.example")⟩]
    editedAt := [] }

/-- Witness for C10 at a concrete successful edit. -/
theorem edit_passthrough_fields_witness :
    sampleEditOutput.citations = sampleEditInput.citations.getD [] ∧
    sampleEditOutput.originalTitle = sampleEditInput.title ∧
    sampleEditOutput.originalArticle = sampleEditInput.article :=
  edit_passthrough_fields sampleEditFn sampleEditInput sampleEditOutput
    (by decide)

/-! ### Properties of the selection loop -/

theorem selectFacts_cons_accept (c : FactCandidate) (rest : List FactCandidate)
    (n : Nat) (seen : List Str) (hn : n ≠ 0)
    (hlen : ¬ (jsNormalize c.sentence).length < 30)
    (hdup : isDuplicate (jsNormalize c.sentence) seen = false) :
    selectFacts (c :: rest) n seen =
      mkFact c :: selectFacts rest (n - 1) (jsNormalize c.sentence :: seen) := by
  simp [selectFacts, hn, hlen, hdup]

theorem selectFacts_length_le (cs : List FactCandidate) :
    ∀ n seen, (selectFacts cs n seen).length ≤ n := by
  induction cs with
  | nil => intro n seen; simp [selectFacts]
  | cons c rest ih =>
    intro n seen
    by_cases hn : n = 0
    · simp [selectFacts, hn]
    · by_cases hlen : (jsNormalize c.sentence).length < 30
      · simpa [selectFacts, hn, hlen] using ih n seen
      · cases hdup : isDuplicate (jsNormalize c.sentence) seen with
        | true => simpa [selectFacts, hn, hlen, hdup] using ih n seen
        | false =>
          rw [selectFacts_cons_accept c rest n seen hn hlen hdup]
          simp only [List.length_cons]
          have := ih (n - 1) (jsNormalize c.sentence :: seen)
          omega

theorem selectFacts_normalized_length (cs : List FactCandidate) :
    ∀ n seen f, f ∈ selectFacts cs n seen →
      30 ≤ (jsNormalize f.fact).length := by
  induction cs with
  | nil => intro n seen f hf; simp [selectFacts] at hf
  | cons c rest ih =>
    intro n seen f hf
    by_cases hn : n = 0
    · simp [selectFacts, hn] at hf
    · by_cases hlen : (jsNormalize c.sentence).length < 30
      · exact ih n seen f (by simpa [selectFacts, hn, hlen] using hf)
      · cases hdup : isDuplicate (jsNormalize c.sentence) seen with
        | true =>
          exact ih n seen f (by simpa [selectFacts, hn, hlen, hdup] using hf)
        | false =>
          rw [selectFacts_cons_accept c rest n seen hn hlen hdup,
            List.mem_cons] at hf
          rcases hf with hf | hf
          · subst hf
            simpa [mkFact] using Nat.le_of_not_lt hlen
          · exact ih (n - 1) (jsNormalize c.sentence :: seen) f hf

/-- C3: every extraction run returns at most `targetCount` facts, and
each returned fact's normalized text (lowercased, whitespace collapsed,
trimmed) is at least 30 characters long. -/
theorem extractFacts_bound (results : List SearchResult)
    (pageTexts : List (Str × Str)) (targetCount : Nat) :
    (extractFacts results pageTexts targetCount).length ≤ targetCount ∧
    ∀ f ∈ extractFacts results pageTexts targetCount,
      30 ≤ (jsNormalize f.fact).length :=
  ⟨selectFacts_length_le _ _ _,
   fun f hf => selectFacts_normalized_length _ _ _ f hf⟩

def wSearchResult : SearchResult :=
  ⟨str ("Example"), str ("https://one.example/a"),
   str ("According to a 2024 study, 42% of users reported improvement in daily productivity.")⟩

def wFact : ResearchFact :=
  ⟨str ("According to a 2024 study, 42% of users reported improvement in daily productivity."),
   str ("https://one.example/a"), str ("Example")⟩

/-- Witness for C3: a concrete run returning one long factual sentence. -/
theorem extractFacts_bound_witness :
    (extractFacts [wSearchResult] [] 7).length ≤ 7 ∧
    30 ≤ (jsNormalize wFact.fact).length :=
  ⟨(extractFacts_bound [wSearchResult] [] 7).1,
   (extractFacts_bound [wSearchResult] [] 7).2 wFact (by decide)⟩

/-! ### Non-overlap of accepted facts -/

theorem overlap_comm (a b : Str) : overlap a b = overlap b a := by
  unfold overlap
  rw [Finset.inter_comm, min_comm]

theorem isDuplicate_false_iff (n : Str) (seen : List Str) :
    isDuplicate n seen = false ↔ ∀ s ∈ seen, overlap n s ≤ 3 / 5 := by
  simp [isDuplicate, not_lt]

theorem selectFacts_no_overlap (cs : List FactCandidate) :
    ∀ n seen,
      (∀ f ∈ selectFacts cs n seen, ∀ s ∈ seen,
        overlap (jsNormalize f.fact) s ≤ 3 / 5) ∧
      (selectFacts cs n seen).Pairwise
        (fun a b => overlap (jsNormalize a.fact) (jsNormalize b.fact) ≤ 3 / 5) := by
  induction cs with
  | nil => intro n seen; constructor <;> simp [selectFacts]
  | cons c rest ih =>
    intro n seen
    by_cases hn : n = 0
    · constructor <;> simp [selectFacts, hn]
    · by_cases hlen : (jsNormalize c.sentence).length < 30
      · simpa [selectFacts, hn, hlen] using ih n seen
      · cases hdup : isDuplicate (jsNormalize c.sentence) seen with
        | true => simpa [selectFacts, hn, hlen, hdup] using ih n seen
        | false =>
          have hseen := (isDuplicate_false_iff _ _).mp hdup
          obtain ⟨ih1, ih2⟩ := ih (n - 1) (jsNormalize c.sentence :: seen)
          rw [selectFacts_cons_accept c rest n seen hn hlen hdup]
          constructor
          · intro f hf s hs
            rcases List.mem_cons.mp hf with hf | hf
            · subst hf
              exact hseen s hs
            · exact ih1 f hf s (List.mem_cons_of_mem _ hs)
          · refine List.Pairwise.cons ?_ ih2
            intro b hb
            have := ih1 b hb (jsNormalize c.sentence) (List.mem_cons_self _ _)
            calc overlap (jsNormalize (mkFact c).fact) (jsNormalize b.fact)
                = overlap (jsNormalize b.fact) (jsNormalize c.sentence) :=
                  overlap_comm _ _
              _ ≤ 3 / 5 := this

/-- C7: no two facts returned by the same extraction run have word-set
overlap ratio above 0.6, the ratio being the intersection size over the
smaller word-set size of the two normalized texts. -/
theorem extractFacts_no_near_duplicates (results : List SearchResult)
    (pageTexts : List (Str × Str)) (targetCount : Nat) :
    (extractFacts results pageTexts targetCount).Pairwise
      (fun a b => overlap (jsNormalize a.fact) (jsNormalize b.fact) ≤ 3 / 5) :=
  (selectFacts_no_overlap _ targetCount []).2

/-! ### Deduplication and the fetch window -/

theorem dedupAux_keys (l : List SearchResult) :
    ∀ seen,
      (∀ r ∈ dedupAux l seen, normalizeUrlKey r.url ∉ seen) ∧
      (dedupAux l seen).Pairwise
        (fun a b => normalizeUrlKey a.url ≠ normalizeUrlKey b.url) := by
  induction l with
  | nil => intro seen; constructor <;> simp [dedupAux]
  | cons r rest ih =>
    intro seen
    by_cases hk : normalizeUrlKey r.url ∈ seen
    · simpa [dedupAux, hk] using ih seen
    · obtain ⟨ih1, ih2⟩ := ih (normalizeUrlKey r.url :: seen)
      have hcons : dedupAux (r :: rest) seen =
          r :: dedupAux rest (normalizeUrlKey r.url :: seen) := by
        simp [dedupAux, hk]
      rw [hcons]
      constructor
      · intro x hx
        rcases List.mem_cons.mp hx with hx | hx
        · subst hx; exact hk
        · intro hmem
          exact ih1 x hx (List.mem_cons_of_mem _ hmem)
      · refine List.Pairwise.cons ?_ ih2
        intro b hb heq
        exact ih1 b hb (heq ▸ List.mem_cons_self _ _)

/-- C6: per research run at most `MAX_PAGES_TO_FETCH = 5` pages are
fetched, and the fetched results are exactly the first
`min 5 n` entries — a prefix — of the URL-deduplicated search-result
list, whose entries pairwise differ on the normalized URL key. -/
theorem research_fetches_front_of_dedup
    (searchBatches : List (List SearchResult)) :
    (pagesToFetch searchBatches).length ≤ MAX_PAGES_TO_FETCH ∧
    pagesToFetch searchBatches =
      (deduplicateResults searchBatches.flatten).take
        (min MAX_PAGES_TO_FETCH
          (deduplicateResults searchBatches.flatten).length) ∧
    pagesToFetch searchBatches <+: deduplicateResults searchBatches.flatten ∧
    (deduplicateResults searchBatches.flatten).Pairwise
      (fun a b => normalizeUrlKey a.url ≠ normalizeUrlKey b.url) := by
  refine ⟨List.length_take_le _ _, ?_, List.take_prefix _ _, (dedupAux_keys _ _).2⟩
  unfold pagesToFetch
  rcases Nat.le_total MAX_PAGES_TO_FETCH
      (deduplicateResults searchBatches.flatten).length with h | h
  · rw [Nat.min_eq_left h]
  · rw [Nat.min_eq_right h, List.take_of_length_le h,
      List.take_of_length_le (Nat.le_refl _)]

/-! ### Facts point into the sources list -/

theorem mem_insertByScore {x c : FactCandidate} {l : List FactCandidate} :
    x ∈ insertByScore c l → x = c ∨ x ∈ l := by
  induction l with
  | nil => intro h; simpa [insertByScore] using h
  | cons d rest ih =>
    intro h
    simp only [insertByScore] at h
    split at h
    · simpa using h
    · rcases List.mem_cons.mp h with h | h
      · exact Or.inr (h ▸ List.mem_cons_self _ _)
      · rcases ih h with h | h
        · exact Or.inl h
        · exact Or.inr (List.mem_cons_of_mem _ h)

theorem mem_sortByScoreDesc {x : FactCandidate} {l : List FactCandidate} :
    x ∈ sortByScoreDesc l → x ∈ l := by
  suffices h : ∀ acc, x ∈ l.foldl (fun acc c => insertByScore c acc) acc →
      x ∈ l ∨ x ∈ acc by
    intro hx
    rcases h [] hx with h1 | h1
    · exact h1
    · cases h1
  induction l with
  | nil => intro acc hx; exact Or.inr hx
  | cons c rest ih =>
    intro acc hx
    rcases ih (insertByScore c acc) hx with h1 | h1
    · exact Or.inl (List.mem_cons_of_mem _ h1)
    · rcases mem_insertByScore h1 with h2 | h2
      · exact Or.inl (h2 ▸ List.mem_cons_self _ _)
      · exact Or.inr h2

theorem collectCandidates_sourceUrl {c : FactCandidate}
    {results : List SearchResult} {pageTexts : List (Str × Str)} :
    c ∈ collectCandidates results pageTexts →
    ∃ r ∈ results, c.sourceUrl = r.url := by
  intro hc
  rcases List.mem_flatMap.mp hc with ⟨r, hr, hmem⟩
  refine ⟨r, hr, ?_⟩
  rcases List.mem_append.mp hmem with h | h
  · rcases List.mem_map.mp h with ⟨s, _, rfl⟩
    rfl
  · unfold pageCandidates at h
    split at h
    · cases h
    · split at h
      · cases h
      · rcases List.mem_map.mp h with ⟨s, _, rfl⟩
        rfl

theorem selectFacts_sourceUrl {f : ResearchFact} (cs : List FactCandidate) :
    ∀ n seen, f ∈ selectFacts cs n seen → ∃ c ∈ cs, f = mkFact c := by
  induction cs with
  | nil => intro n seen hf; simp [selectFacts] at hf
  | cons c rest ih =>
    intro n seen hf
    by_cases hn : n = 0
    · simp [selectFacts, hn] at hf
    · by_cases hlen : (jsNormalize c.sentence).length < 30
      · obtain ⟨d, hd, hfd⟩ :=
          ih n seen (by simpa [selectFacts, hn, hlen] using hf)
        exact ⟨d, List.mem_cons_of_mem _ hd, hfd⟩
      · cases hdup : isDuplicate (jsNormalize c.sentence) seen with
        | true =>
          obtain ⟨d, hd, hfd⟩ :=
            ih n seen (by simpa [selectFacts, hn, hlen, hdup] using hf)
          exact ⟨d, List.mem_cons_of_mem _ hd, hfd⟩
        | false =>
          rw [selectFacts_cons_accept c rest n seen hn hlen hdup,
            List.mem_cons] at hf
          rcases hf with hf | hf
          · exact ⟨c, List.mem_cons_self _ _, hf⟩
          · obtain ⟨d, hd, hfd⟩ := ih (n - 1) (jsNormalize c.sentence :: seen) hf
            exact ⟨d, List.mem_cons_of_mem _ hd, hfd⟩

theorem extractFacts_sourceUrl {f : ResearchFact}
    {results : List SearchResult} {pageTexts : List (Str × Str)}
    {targetCount : Nat} (hf : f ∈ extractFacts results pageTexts targetCount) :
    ∃ r ∈ results, f.sourceUrl = r.url := by
  obtain ⟨c, hc, rfl⟩ := selectFacts_sourceUrl _ _ _ hf
  obtain ⟨r, hr, hurl⟩ := collectCandidates_sourceUrl (mem_sortByScoreDesc hc)
  exact ⟨r, hr, hurl⟩

/-- C8: in every research result, each fact's `sourceUrl` is the `url`
of some entry of the returned sources list. -/
theorem research_facts_have_sources (topic : Str)
    (searchBatches : List (List SearchResult)) (fetchText : Str → Str) :
    ∀ f ∈ (research topic searchBatches fetchText).facts,
      ∃ s ∈ (research topic searchBatches fetchText).sources,
        s.url = f.sourceUrl := by
  intro f hf
  simp only [research] at hf ⊢
  obtain ⟨r, hr, hurl⟩ := extractFacts_sourceUrl hf
  refine ⟨mkSource r, ?_, hurl.symm⟩
  refine List.mem_append_left _ ?_
  refine List.mem_map.mpr ⟨r, ?_, rfl⟩
  refine List.mem_filter.mpr ⟨hr, ?_⟩
  simp only [decide_eq_true_eq]
  exact List.mem_map.mpr ⟨f, hf, hurl⟩

def w8Result : SearchResult :=
  ⟨str ("Example"), str ("https://two.example/b"),
   str ("A 2023 report found that 31% of workers changed habits after the study was published.")⟩

def w8Fact : ResearchFact :=
  ⟨str ("A 2023 report found that 31% of workers changed habits after the study was published."),
   str ("https://two.example/b"), str ("Example")⟩

/-- Witness for C8 at a concrete one-result research run. -/
theorem research_facts_have_sources_witness :
    ∃ s ∈ (research (str ("work")) [[w8Result]] (fun _ => [])).sources,
      s.url = w8Fact.sourceUrl :=
  research_facts_have_sources (str ("work")) [[w8Result]] (fun _ => [])
    w8Fact (by decide)

end ContentStudio
